import Mathlib

/-!
Shallow embedding of the afkmute reconciliation core (afkmute.py).

The per-guild registry (a saru config mapping the key str(user.id) to an
AfkMuteInfo dict, accessed through membership test, set and delete) is
modelled as an association list from String keys to AfkMuteInfo values.
Platform side-effect calls (member.edit with mute true or false) are
recorded in an output list of Effect values; the environment fixes, for
each user id, the cached voice state returned by guild.get_voice_state
and whether a platform edit call for that user succeeds (a failing edit
raises, modelled as the platform error).  Each operation returns the
outcome (ok value or raised error), the registry after the operation,
and the list of platform calls it issued, in order.
-/

/-- The AfkMuteInfo dataclass: user_id and muter_id. -/
structure AfkMuteInfo where
  user_id : Nat
  muter_id : Nat
  deriving DecidableEq, Repr

/-- A hikari voice state, restricted to the fields the program reads. -/
structure VoiceState where
  channel_id : Option Nat
  is_guild_muted : Bool
  is_self_muted : Bool
  is_self_deafened : Bool
  is_streaming : Bool
  is_video_enabled : Bool
  deriving DecidableEq, Repr

/-- The error taxonomy: the three AfkMuteError subclasses, plus the
platform error raised by a failing member.edit call. -/
inductive AfkMuteErr where
  | alreadyAfkMute
  | notAfkMute
  | notInVc
  | platform
  deriving DecidableEq, Repr

/-- A platform side-effect call: member.edit with mute=True or mute=False. -/
inductive Effect where
  | mute (user : Nat)
  | unmute (user : Nat)
  deriving DecidableEq, Repr

/-- The registry backing store: the saru config mapping str(user.id) to a
record, modelled as an association list. -/
abbrev Cfg := List (String × AfkMuteInfo)

/-- The key under which a record for a user id is stored: str(user.id). -/
def userKey (user : Nat) : String := toString user

/-- Python membership test: key in self.cfg. -/
def cfgContains (cfg : Cfg) (k : String) : Bool :=
  cfg.any (fun p => p.1 == k)

/-- Retrieval of the record stored under a key. -/
def cfgGet (cfg : Cfg) (k : String) : Option AfkMuteInfo :=
  (cfg.find? (fun p => p.1 == k)).map (fun p => p.2)

/-- self.cfg.set, with dict update semantics: replace the value in place
when the key exists, append a fresh entry otherwise. -/
def cfgSet (cfg : Cfg) (k : String) (v : AfkMuteInfo) : Cfg :=
  if cfgContains cfg k then
    cfg.map (fun p => if p.1 == k then (k, v) else p)
  else
    cfg ++ [(k, v)]

/-- self.cfg.delete: remove the entry stored under the key. -/
def cfgDelete (cfg : Cfg) (k : String) : Cfg :=
  cfg.filter (fun p => p.1 != k)

/-- self.cfg.opts.values(): the stored records, in order. -/
def cfgValues (cfg : Cfg) : List AfkMuteInfo :=
  cfg.map (fun p => p.2)

/-- The fixed external world during one operation: the cached voice state
per user id (guild.get_voice_state) and whether a platform edit call for
that user succeeds. -/
structure Env where
  voice : Nat → Option VoiceState
  editOk : Nat → Bool

/-- AfkMuteState.is_user_in_vc: the cached voice state is not None. -/
def Env.inVc (env : Env) (user : Nat) : Bool :=
  (env.voice user).isSome

/-- Result of an operation: outcome, registry afterwards, platform calls
issued. -/
abbrev AfkResult (α : Type) := Except AfkMuteErr α × Cfg × List Effect

/-- AfkMuteState.is_afk_mute: str(user.id) in self.cfg. -/
def is_afk_mute (cfg : Cfg) (user : Nat) : Bool :=
  cfgContains cfg (userKey user)

/-- AfkMuteState.set_afk_mute: raise UserAlreadyAfkMuteError when a record
exists; when the user is in vc, issue the platform mute edit (a failing
edit raises before the record is written); then write and return the
record with user_id and muter_id. -/
def set_afk_mute (env : Env) (cfg : Cfg) (user muter : Nat) :
    AfkResult AfkMuteInfo :=
  if is_afk_mute cfg user then
    (Except.error AfkMuteErr.alreadyAfkMute, cfg, [])
  else if env.inVc user then
    if env.editOk user then
      (Except.ok ⟨user, muter⟩, cfgSet cfg (userKey user) ⟨user, muter⟩,
        [Effect.mute user])
    else
      (Except.error AfkMuteErr.platform, cfg, [Effect.mute user])
  else
    (Except.ok ⟨user, muter⟩, cfgSet cfg (userKey user) ⟨user, muter⟩, [])

/-- AfkMuteState.unset_afk_mute: raise UserNotAfkMuteError when no record
exists; raise UserNotInVcError when no_vc_ok is false and the user is not
in vc; when no_vc_ok is false, issue the platform unmute edit (a failing
edit raises before the record is deleted); then delete the record. -/
def unset_afk_mute (env : Env) (cfg : Cfg) (user : Nat) (no_vc_ok : Bool) :
    AfkResult Unit :=
  if !is_afk_mute cfg user then
    (Except.error AfkMuteErr.notAfkMute, cfg, [])
  else if !no_vc_ok && !env.inVc user then
    (Except.error AfkMuteErr.notInVc, cfg, [])
  else if !no_vc_ok then
    if env.editOk user then
      (Except.ok (), cfgDelete cfg (userKey user), [Effect.unmute user])
    else
      (Except.error AfkMuteErr.platform, cfg, [Effect.unmute user])
  else
    (Except.ok (), cfgDelete cfg (userKey user), [])

/-- The loop body list of on_voice_state_update: the four voice-state
flags inspected, in source order. -/
def user_status : List (VoiceState → Bool) :=
  [VoiceState.is_self_deafened, VoiceState.is_self_muted,
   VoiceState.is_streaming, VoiceState.is_video_enabled]

/-- The for loop at the end of on_voice_state_update: at the first flag
whose value differs between the old and the current state, call
unset_afk_mute (with the default no_vc_ok, false) and return. -/
def status_loop (env : Env) (cfg : Cfg) (user : Nat) (old cur : VoiceState) :
    List (VoiceState → Bool) → AfkResult Unit
  | [] => (Except.ok (), cfg, [])
  | f :: rest =>
    if f old != f cur then
      unset_afk_mute env cfg user false
    else
      status_loop env cfg user old cur rest

/-- The on_voice_state_update listener.  In order: if the user was
guild-muted before, is no longer, and is afk-muted, unset (default
no_vc_ok, false) and return; if the user has no old state, has a channel
id, is afk-muted and is not guild-muted, directly issue the platform mute
edit (a failing edit raises); if there is no old state, return; otherwise
run the user_status loop. -/
def on_voice_state_update (env : Env) (cfg : Cfg) (user : Nat)
    (old_state : Option VoiceState) (state : VoiceState) :
    AfkResult Unit :=
  let manually_unmuted :=
    match old_state with
    | some o => o.is_guild_muted && !state.is_guild_muted
    | none => false
  if manually_unmuted && is_afk_mute cfg user then
    unset_afk_mute env cfg user false
  else
    let joined_vc := old_state.isNone && state.channel_id.isSome
    if joined_vc && is_afk_mute cfg user && !state.is_guild_muted then
      if env.editOk user then
        (Except.ok (), cfg, [Effect.mute user])
      else
        (Except.error AfkMuteErr.platform, cfg, [Effect.mute user])
    else
      match old_state with
      | none => (Except.ok (), cfg, [])
      | some old => status_loop env cfg user old state user_status

/-- The on_member_message_action listener for the acting user: if the
user is afk-muted, call unset_afk_mute with the default no_vc_ok (false),
catching and swallowing only UserNotInVcError. -/
def on_member_message_action (env : Env) (cfg : Cfg) (user : Nat) :
    AfkResult Unit :=
  if is_afk_mute cfg user then
    match unset_afk_mute env cfg user false with
    | (Except.error AfkMuteErr.notInVc, c, effs) => (Except.ok (), c, effs)
    | r => r
  else
    (Except.ok (), cfg, [])

/-- The per-record loop of AfkMuteState.fetch_afk_mute_state, run over
the list of records snapshotted from the config at entry: for each
record, look up the cached voice state of its user; when it exists and
is not guild-muted, call unset_afk_mute with no_vc_ok true.  An error
raised by unset_afk_mute propagates and aborts the remaining records. -/
def sweep_records (env : Env) :
    List AfkMuteInfo → Cfg → AfkResult Unit
  | [], cfg => (Except.ok (), cfg, [])
  | info :: rest, cfg =>
    match env.voice info.user_id with
    | some vs =>
      if !vs.is_guild_muted then
        match unset_afk_mute env cfg info.user_id true with
        | (Except.ok _, c, effs) =>
          match sweep_records env rest c with
          | (r, c2, effs2) => (r, c2, effs ++ effs2)
        | (Except.error e, c, effs) => (Except.error e, c, effs)
      else
        sweep_records env rest cfg
    | none =>
      sweep_records env rest cfg

/-- AfkMuteState.fetch_afk_mute_state: snapshot the stored records, then
run the sweep loop over them. -/
def fetch_afk_mute_state (env : Env) (cfg : Cfg) : AfkResult Unit :=
  sweep_records env (cfgValues cfg) cfg

/-- A registry mutation, for stating preservation across call
sequences: an apply (set_afk_mute) or a clear (unset_afk_mute). -/
inductive Op where
  | apply (user muter : Nat)
  | clear (user : Nat) (no_vc_ok : Bool)
  deriving DecidableEq, Repr

/-- The registry after one operation (raised errors leave the registry
as the operation left it). -/
def runOp (env : Env) (cfg : Cfg) : Op → Cfg
  | Op.apply u m => (set_afk_mute env cfg u m).2.1
  | Op.clear u b => (unset_afk_mute env cfg u b).2.1

/-- The registry after a sequence of operations. -/
def run (env : Env) (cfg : Cfg) : List Op → Cfg
  | [] => cfg
  | op :: rest => run env (runOp env cfg op) rest

/-- The per-record test of fetch_afk_mute_state: the user of the record
has a cached voice state and it is not guild-muted. -/
def should_clear (env : Env) (i : AfkMuteInfo) : Bool :=
  match env.voice i.user_id with
  | some vs => !vs.is_guild_muted
  | none => false

/-- Wellformedness of the registry as maintained by the program: the
keys are pairwise distinct (dict semantics) and every entry is stored
under the key str of the user_id of its record. -/
def CfgWF (cfg : Cfg) : Prop :=
  ((cfg.map (fun p => p.1)).Nodup) ∧ ∀ p ∈ cfg, p.1 = userKey p.2.user_id

instance (cfg : Cfg) : Decidable (CfgWF cfg) :=
  inferInstanceAs
    (Decidable (((cfg.map (fun p : String × AfkMuteInfo => p.1)).Nodup)
      ∧ ∀ p ∈ cfg, p.1 = userKey p.2.user_id))

-- Concrete fixtures used by witnesses and counterexamples.

/-- A record: user 1 muted by user 2. -/
def infoA : AfkMuteInfo := ⟨1, 2⟩

/-- A registry holding exactly the record for user 1. -/
def cfgA : Cfg := [(userKey 1, infoA)]

/-- A voice state in channel 3 with every flag off. -/
def vsQuiet : VoiceState := ⟨some 3, false, false, false, false, false⟩

/-- A voice state in channel 3, guild-muted, all other flags off. -/
def vsMuted : VoiceState := ⟨some 3, true, false, false, false, false⟩

/-- A voice state in channel 3 with only is_self_muted on. -/
def vsSelfMutedOn : VoiceState := ⟨some 3, false, true, false, false, false⟩

/-- A voice state with no channel and every flag off. -/
def vsNoChannel : VoiceState := ⟨none, false, false, false, false, false⟩

/-- An environment where user 1 is in vc with vsQuiet and edits succeed. -/
def envVc : Env := ⟨fun u => if u == 1 then some vsQuiet else none, fun _ => true⟩

/-- An environment where nobody is in vc and edits succeed. -/
def envNoVc : Env := ⟨fun _ => none, fun _ => true⟩


/-! ### Basic facts about the registry store -/

theorem cfgContains_eq_isSome_cfgGet (cfg : Cfg) (k : String) :
    cfgContains cfg k = (cfgGet cfg k).isSome := by
  induction cfg with
  | nil => rfl
  | cons p rest ih =>
    by_cases h : (p.1 == k) = true
    · simp [cfgContains, cfgGet, List.find?_cons_of_pos _ h, h]
    · have h2 : (p.1 == k) = false := by simpa using h
      simp only [cfgContains, List.any_cons, h2, Bool.false_or]
      rw [cfgGet, List.find?_cons_of_neg _ (by simp [h2])]
      exact ih

theorem cfgContains_append_single (cfg : Cfg) (k : String) (v : AfkMuteInfo) :
    cfgContains (cfg ++ [(k, v)]) k = true := by
  simp [cfgContains]

theorem cfgGet_append_single (cfg : Cfg) (k : String) (v : AfkMuteInfo)
    (h : cfgContains cfg k = false) :
    cfgGet (cfg ++ [(k, v)]) k = some v := by
  induction cfg with
  | nil => simp [cfgGet]
  | cons p rest ih =>
    simp only [cfgContains, List.any_cons, Bool.or_eq_false_iff] at h
    rw [List.cons_append, cfgGet, List.find?_cons_of_neg _ (by simp [h.1])]
    exact ih h.2

theorem cfgContains_delete (cfg : Cfg) (k : String) :
    cfgContains (cfgDelete cfg k) k = false := by
  rw [cfgContains, List.any_eq_false]
  intro p hp
  have := List.of_mem_filter hp
  simpa using this

/-! ### Branch descriptions of set_afk_mute and unset_afk_mute -/

theorem set_afk_mute_of_already (env : Env) (cfg : Cfg) (u m : Nat)
    (h : is_afk_mute cfg u = true) :
    set_afk_mute env cfg u m = (Except.error AfkMuteErr.alreadyAfkMute, cfg, []) := by
  simp [set_afk_mute, h]

theorem set_afk_mute_of_edit_fail (env : Env) (cfg : Cfg) (u m : Nat)
    (h : is_afk_mute cfg u = false) (h2 : env.inVc u = true)
    (h3 : env.editOk u = false) :
    set_afk_mute env cfg u m
      = (Except.error AfkMuteErr.platform, cfg, [Effect.mute u]) := by
  simp [set_afk_mute, h, h2, h3]

theorem set_afk_mute_of_fresh (env : Env) (cfg : Cfg) (u m : Nat)
    (h : is_afk_mute cfg u = false)
    (hok : env.inVc u = false ∨ env.editOk u = true) :
    set_afk_mute env cfg u m
      = (Except.ok ⟨u, m⟩, cfg ++ [(userKey u, ⟨u, m⟩)],
          if env.inVc u then [Effect.mute u] else []) := by
  have h' : cfgContains cfg (userKey u) = false := h
  rcases hok with h2 | h2
  · simp [set_afk_mute, h, h2, cfgSet, h']
  · by_cases h3 : env.inVc u = true
    · simp [set_afk_mute, h, h2, h3, cfgSet, h']
    · have h4 : env.inVc u = false := by simpa using h3
      simp [set_afk_mute, h, h2, h4, cfgSet, h']

theorem unset_afk_mute_of_not (env : Env) (cfg : Cfg) (u : Nat) (b : Bool)
    (h : is_afk_mute cfg u = false) :
    unset_afk_mute env cfg u b = (Except.error AfkMuteErr.notAfkMute, cfg, []) := by
  simp [unset_afk_mute, h]

theorem unset_afk_mute_of_no_vc (env : Env) (cfg : Cfg) (u : Nat)
    (h : is_afk_mute cfg u = true) (h2 : env.inVc u = false) :
    unset_afk_mute env cfg u false = (Except.error AfkMuteErr.notInVc, cfg, []) := by
  simp [unset_afk_mute, h, h2]

theorem unset_afk_mute_of_vc (env : Env) (cfg : Cfg) (u : Nat)
    (h : is_afk_mute cfg u = true) (h2 : env.inVc u = true)
    (h3 : env.editOk u = true) :
    unset_afk_mute env cfg u false
      = (Except.ok (), cfgDelete cfg (userKey u), [Effect.unmute u]) := by
  simp [unset_afk_mute, h, h2, h3]

theorem unset_afk_mute_of_vc_edit_fail (env : Env) (cfg : Cfg) (u : Nat)
    (h : is_afk_mute cfg u = true) (h2 : env.inVc u = true)
    (h3 : env.editOk u = false) :
    unset_afk_mute env cfg u false
      = (Except.error AfkMuteErr.platform, cfg, [Effect.unmute u]) := by
  simp [unset_afk_mute, h, h2, h3]

theorem unset_afk_mute_of_no_vc_ok (env : Env) (cfg : Cfg) (u : Nat)
    (h : is_afk_mute cfg u = true) :
    unset_afk_mute env cfg u true
      = (Except.ok (), cfgDelete cfg (userKey u), []) := by
  simp [unset_afk_mute, h]

/-! ### Claims about the registry operations -/

/-- Claim C1: registry membership invariant.  For every user, is_afk_mute
is true exactly when a record is retrievable for that user, and this
holds at every state reached by any sequence of apply and clear calls
(indeed at every state); a successful apply stores exactly the record
that makes it true, and a successful clear makes it false.  is_afk_mute
itself is a pure function of the registry and performs no mutation. -/
theorem c1_registry_membership_invariant (env : Env) (cfg0 cfg : Cfg)
    (ops : List Op) (u m : Nat) (b : Bool) :
    (is_afk_mute (run env cfg0 ops) u
        = (cfgGet (run env cfg0 ops) (userKey u)).isSome)
    ∧ ((set_afk_mute env cfg u m).1 = Except.ok (⟨u, m⟩ : AfkMuteInfo) →
        is_afk_mute (set_afk_mute env cfg u m).2.1 u = true
        ∧ cfgGet (set_afk_mute env cfg u m).2.1 (userKey u) = some ⟨u, m⟩)
    ∧ ((unset_afk_mute env cfg u b).1 = Except.ok () →
        is_afk_mute (unset_afk_mute env cfg u b).2.1 u = false) := by
  refine ⟨cfgContains_eq_isSome_cfgGet _ _, ?_, ?_⟩
  · intro hok
    by_cases h1 : is_afk_mute cfg u = true
    · rw [set_afk_mute_of_already env cfg u m h1] at hok
      exact absurd hok (by simp)
    · have h1' : is_afk_mute cfg u = false := by simpa using h1
      by_cases h2 : env.inVc u = true
      · by_cases h3 : env.editOk u = true
        · rw [set_afk_mute_of_fresh env cfg u m h1' (Or.inr h3)]
          exact ⟨cfgContains_append_single cfg (userKey u) ⟨u, m⟩,
            cfgGet_append_single cfg (userKey u) ⟨u, m⟩ h1'⟩
        · rw [set_afk_mute_of_edit_fail env cfg u m h1' h2 (by simpa using h3)] at hok
          exact absurd hok (by simp)
      · rw [set_afk_mute_of_fresh env cfg u m h1' (Or.inl (by simpa using h2))]
        exact ⟨cfgContains_append_single cfg (userKey u) ⟨u, m⟩,
          cfgGet_append_single cfg (userKey u) ⟨u, m⟩ h1'⟩
  · intro hok
    by_cases h1 : is_afk_mute cfg u = true
    · cases b with
      | true =>
        rw [unset_afk_mute_of_no_vc_ok env cfg u h1]
        exact cfgContains_delete cfg (userKey u)
      | false =>
        by_cases h2 : env.inVc u = true
        · by_cases h3 : env.editOk u = true
          · rw [unset_afk_mute_of_vc env cfg u h1 h2 h3]
            exact cfgContains_delete cfg (userKey u)
          · rw [unset_afk_mute_of_vc_edit_fail env cfg u h1 h2 (by simpa using h3)] at hok
            exact absurd hok (by simp)
        · rw [unset_afk_mute_of_no_vc env cfg u h1 (by simpa using h2)] at hok
          exact absurd hok (by simp)
    · rw [unset_afk_mute_of_not env cfg u b (by simpa using h1)] at hok
      exact absurd hok (by simp)

/-- Claim C1 witness at a concrete input. -/
theorem c1_witness :
    (is_afk_mute (run envVc [] [Op.apply 1 2]) 1
        = (cfgGet (run envVc [] [Op.apply 1 2]) (userKey 1)).isSome)
    ∧ ((set_afk_mute envVc [] 1 2).1 = Except.ok (⟨1, 2⟩ : AfkMuteInfo) →
        is_afk_mute (set_afk_mute envVc [] 1 2).2.1 1 = true
        ∧ cfgGet (set_afk_mute envVc [] 1 2).2.1 (userKey 1) = some ⟨1, 2⟩)
    ∧ ((unset_afk_mute envVc [] 1 true).1 = Except.ok () →
        is_afk_mute (unset_afk_mute envVc [] 1 true).2.1 1 = false) :=
  c1_registry_membership_invariant envVc [] [] [Op.apply 1 2] 1 2 true

/-- Claim C2: full postcondition of set_afk_mute.  With a record present
it fails with AlreadyMuted leaving the registry unchanged; otherwise the
platform mute call is issued exactly when the user is in vc, a failing
call leaves the registry unchanged, and on success the record with
user_id u and muter_id m is written and returned, is_afk_mute becomes
true, and a second apply fails with AlreadyMuted. -/
theorem c2_apply_postcondition (env : Env) (cfg : Cfg) (u m : Nat) :
    (is_afk_mute cfg u = true →
      set_afk_mute env cfg u m = (Except.error AfkMuteErr.alreadyAfkMute, cfg, []))
    ∧ (is_afk_mute cfg u = false →
      ((set_afk_mute env cfg u m).2.2
          = (if env.inVc u then [Effect.mute u] else []))
      ∧ (env.inVc u = true → env.editOk u = false →
          set_afk_mute env cfg u m
            = (Except.error AfkMuteErr.platform, cfg, [Effect.mute u]))
      ∧ ((env.inVc u = false ∨ env.editOk u = true) →
          (set_afk_mute env cfg u m).1 = Except.ok ⟨u, m⟩
          ∧ cfgGet (set_afk_mute env cfg u m).2.1 (userKey u) = some ⟨u, m⟩
          ∧ is_afk_mute (set_afk_mute env cfg u m).2.1 u = true
          ∧ (set_afk_mute env (set_afk_mute env cfg u m).2.1 u m).1
              = Except.error AfkMuteErr.alreadyAfkMute)) := by
  constructor
  · intro h1
    exact set_afk_mute_of_already env cfg u m h1
  · intro h1
    refine ⟨?_, ?_, ?_⟩
    · by_cases h2 : env.inVc u = true
      · by_cases h3 : env.editOk u = true
        · rw [set_afk_mute_of_fresh env cfg u m h1 (Or.inr h3)]
        · rw [set_afk_mute_of_edit_fail env cfg u m h1 h2 (by simpa using h3), h2]
          simp
      · have h2' : env.inVc u = false := by simpa using h2
        rw [set_afk_mute_of_fresh env cfg u m h1 (Or.inl h2')]
    · intro h2 h3
      exact set_afk_mute_of_edit_fail env cfg u m h1 h2 h3
    · intro hok
      rw [set_afk_mute_of_fresh env cfg u m h1 hok]
      have hmem : is_afk_mute (cfg ++ [(userKey u, ⟨u, m⟩)]) u = true :=
        cfgContains_append_single cfg (userKey u) ⟨u, m⟩
      refine ⟨rfl, cfgGet_append_single cfg (userKey u) ⟨u, m⟩ h1, hmem, ?_⟩
      exact congrArg Prod.fst
        (set_afk_mute_of_already env (cfg ++ [(userKey u, ⟨u, m⟩)]) u m hmem)

/-- Claim C2 witness at a concrete input. -/
theorem c2_witness :
    (is_afk_mute ([] : Cfg) 1 = true →
      set_afk_mute envVc [] 1 2 = (Except.error AfkMuteErr.alreadyAfkMute, [], []))
    ∧ (is_afk_mute ([] : Cfg) 1 = false →
      ((set_afk_mute envVc [] 1 2).2.2
          = (if Env.inVc envVc 1 then [Effect.mute 1] else []))
      ∧ (Env.inVc envVc 1 = true → Env.editOk envVc 1 = false →
          set_afk_mute envVc [] 1 2
            = (Except.error AfkMuteErr.platform, [], [Effect.mute 1]))
      ∧ ((Env.inVc envVc 1 = false ∨ Env.editOk envVc 1 = true) →
          (set_afk_mute envVc [] 1 2).1 = Except.ok ⟨1, 2⟩
          ∧ cfgGet (set_afk_mute envVc [] 1 2).2.1 (userKey 1) = some ⟨1, 2⟩
          ∧ is_afk_mute (set_afk_mute envVc [] 1 2).2.1 1 = true
          ∧ (set_afk_mute envVc (set_afk_mute envVc [] 1 2).2.1 1 2).1
              = Except.error AfkMuteErr.alreadyAfkMute)) :=
  c2_apply_postcondition envVc [] 1 2

/-- Claim C3 counterexample: user 1 has a record and a live voice
presence; unset_afk_mute with no_vc_ok true succeeds and deletes the
record, yet issues no platform unmute call, refuting the claim that a
platform unmute side-effect is issued whenever the user has a live voice
presence, including when allowNoPresence is true. -/
theorem c3_counterexample :
    is_afk_mute cfgA 1 = true
    ∧ Env.inVc envVc 1 = true
    ∧ unset_afk_mute envVc cfgA 1 true = (Except.ok (), [], []) :=
  ⟨by decide, by decide, rfl⟩

/-- Claim C3 as amended: unset_afk_mute fails with NotMuted when no
record exists (so a second clear in a row fails with NotMuted); fails
with NotInVoice and performs no mutation when the user is not in vc and
no_vc_ok is false; issues the platform unmute call exactly when no_vc_ok
is false (never when no_vc_ok is true, even for a user in vc); and on
success deletes the record in either mode. -/
theorem c3_clear_postcondition_amended (env : Env) (cfg : Cfg) (u : Nat) (b : Bool) :
    (is_afk_mute cfg u = false →
      unset_afk_mute env cfg u b = (Except.error AfkMuteErr.notAfkMute, cfg, []))
    ∧ (is_afk_mute cfg u = true →
      (b = false → Env.inVc env u = false →
        unset_afk_mute env cfg u b = (Except.error AfkMuteErr.notInVc, cfg, []))
      ∧ (b = false → Env.inVc env u = true → Env.editOk env u = true →
        unset_afk_mute env cfg u b
          = (Except.ok (), cfgDelete cfg (userKey u), [Effect.unmute u]))
      ∧ (b = true →
        unset_afk_mute env cfg u b
          = (Except.ok (), cfgDelete cfg (userKey u), []))
      ∧ (unset_afk_mute env (cfgDelete cfg (userKey u)) u b).1
          = Except.error AfkMuteErr.notAfkMute) := by
  constructor
  · intro h
    exact unset_afk_mute_of_not env cfg u b h
  · intro h
    refine ⟨?_, ?_, ?_, ?_⟩
    · rintro rfl h2
      exact unset_afk_mute_of_no_vc env cfg u h h2
    · rintro rfl h2 h3
      exact unset_afk_mute_of_vc env cfg u h h2 h3
    · rintro rfl
      exact unset_afk_mute_of_no_vc_ok env cfg u h
    · exact congrArg Prod.fst
        (unset_afk_mute_of_not env (cfgDelete cfg (userKey u)) u b
          (cfgContains_delete cfg (userKey u)))

/-- Claim C3 witness at a concrete input. -/
theorem c3_witness :
    (is_afk_mute cfgA 1 = false →
      unset_afk_mute envVc cfgA 1 false
        = (Except.error AfkMuteErr.notAfkMute, cfgA, []))
    ∧ (is_afk_mute cfgA 1 = true →
      (false = false → Env.inVc envVc 1 = false →
        unset_afk_mute envVc cfgA 1 false
          = (Except.error AfkMuteErr.notInVc, cfgA, []))
      ∧ (false = false → Env.inVc envVc 1 = true → Env.editOk envVc 1 = true →
        unset_afk_mute envVc cfgA 1 false
          = (Except.ok (), cfgDelete cfgA (userKey 1), [Effect.unmute 1]))
      ∧ (false = true →
        unset_afk_mute envVc cfgA 1 false
          = (Except.ok (), cfgDelete cfgA (userKey 1), []))
      ∧ (unset_afk_mute envVc (cfgDelete cfgA (userKey 1)) 1 false).1
          = Except.error AfkMuteErr.notAfkMute) :=
  c3_clear_postcondition_amended envVc cfgA 1 false

/-- Claim C4 counterexample: user 1 has a record and no live voice
presence and posts a message; the handler returns ok (the NotInVoice
failure of its clear attempt is swallowed) but the record is not
deleted, refuting the claim that the handler clears with
allowNoPresence true so that the record is deleted. -/
theorem c4_counterexample :
    is_afk_mute cfgA 1 = true
    ∧ envNoVc.voice 1 = none
    ∧ on_member_message_action envNoVc cfgA 1 = (Except.ok (), cfgA, [])
    ∧ is_afk_mute (on_member_message_action envNoVc cfgA 1).2.1 1 = true :=
  ⟨by decide, rfl, rfl, by decide⟩

/-- Claim C4 as amended: on an activity event for an afk-muted acting
user the handler calls unset_afk_mute with the default no_vc_ok false
and swallows only the NotInVoice failure; for a user with a record but
no live voice presence the clear fails with NotInVoice, the failure is
swallowed, the record remains and no platform call is issued; for a
user with a record and a live presence (with the edit succeeding) the
record is deleted and a platform unmute call is issued; for a user
without a record nothing happens. -/
theorem c4_activity_clear_amended (env : Env) (cfg : Cfg) (u : Nat) :
    (is_afk_mute cfg u = false →
      on_member_message_action env cfg u = (Except.ok (), cfg, []))
    ∧ (is_afk_mute cfg u = true → Env.inVc env u = false →
      on_member_message_action env cfg u = (Except.ok (), cfg, []))
    ∧ (is_afk_mute cfg u = true → Env.inVc env u = true → Env.editOk env u = true →
      on_member_message_action env cfg u
        = (Except.ok (), cfgDelete cfg (userKey u), [Effect.unmute u])) := by
  refine ⟨?_, ?_, ?_⟩
  · intro h
    simp [on_member_message_action, h]
  · intro h h2
    rw [on_member_message_action, if_pos h, unset_afk_mute_of_no_vc env cfg u h h2]
  · intro h h2 h3
    rw [on_member_message_action, if_pos h, unset_afk_mute_of_vc env cfg u h h2 h3]

/-- Claim C4 witness at a concrete input. -/
theorem c4_witness :
    (is_afk_mute cfgA 1 = false →
      on_member_message_action envNoVc cfgA 1 = (Except.ok (), cfgA, []))
    ∧ (is_afk_mute cfgA 1 = true → Env.inVc envNoVc 1 = false →
      on_member_message_action envNoVc cfgA 1 = (Except.ok (), cfgA, []))
    ∧ (is_afk_mute cfgA 1 = true → Env.inVc envNoVc 1 = true →
        Env.editOk envNoVc 1 = true →
      on_member_message_action envNoVc cfgA 1
        = (Except.ok (), cfgDelete cfgA (userKey 1), [Effect.unmute 1])) :=
  c4_activity_clear_amended envNoVc cfgA 1

/-- Claim C5: administrator-cleared mute takes priority.  When an old
state exists and was guild-muted, the current state is not guild-muted,
and the user is afk-muted, the whole handler result is exactly that of
unset_afk_mute with no_vc_ok false: processing stops there, so neither
the join-while-muted branch nor the status-flag loop contributes
anything to the result (rules 1 and 3 never both act on one event). -/
theorem c5_admin_cleared_priority (env : Env) (cfg : Cfg) (u : Nat)
    (old cur : VoiceState)
    (h1 : old.is_guild_muted = true) (h2 : cur.is_guild_muted = false)
    (h3 : is_afk_mute cfg u = true) :
    on_voice_state_update env cfg u (some old) cur
      = unset_afk_mute env cfg u false := by
  simp [on_voice_state_update, h1, h2, h3]

/-- Claim C5 witness at a concrete input. -/
theorem c5_witness :
    on_voice_state_update envVc cfgA 1 (some vsMuted) vsQuiet
      = unset_afk_mute envVc cfgA 1 false :=
  c5_admin_cleared_priority envVc cfgA 1 vsMuted vsQuiet (by decide) (by decide)
    (by decide)

/-- Claim C6, failing input for the code bug: the status-flag loop of
on_voice_state_update calls unset_afk_mute without first checking
is_afk_mute.  For a user with no record whose is_self_muted flag toggled
(old state vsQuiet, current state vsSelfMutedOn), the handler raises
UserNotAfkMuteError, where the claim (and the spec rule, whose guard
matches the explicit is_afk_mute checks of the two other rules) requires
no action and no error. -/
theorem c6_rule3_unguarded_eval :
    is_afk_mute ([] : Cfg) 1 = false
    ∧ on_voice_state_update envVc [] 1 (some vsQuiet) vsSelfMutedOn
        = (Except.error AfkMuteErr.notAfkMute, [], []) :=
  ⟨by decide, rfl⟩

/-- Claim C7 counterexample: the current snapshot has no channel id, the
user is afk-muted and not guild-muted, and there is no old state; the
handler issues no platform mute call (the code additionally requires
event.state.channel_id to be present), refuting the claim as stated for
every current snapshot. -/
theorem c7_counterexample :
    is_afk_mute cfgA 1 = true
    ∧ vsNoChannel.is_guild_muted = false
    ∧ on_voice_state_update envNoVc cfgA 1 none vsNoChannel
        = (Except.ok (), cfgA, []) :=
  ⟨by decide, rfl, rfl⟩

/-- Claim C7 as amended: join-while-muted additionally requires the
current snapshot to carry a channel id.  With no old state, a channel id
present, the user afk-muted, the snapshot not guild-muted, and the edit
succeeding, the handler directly issues the platform mute call, leaves
the registry unchanged (the record is neither replaced nor duplicated)
and raises no error. -/
theorem c7_join_while_muted_amended (env : Env) (cfg : Cfg) (u : Nat)
    (cur : VoiceState)
    (h1 : is_afk_mute cfg u = true) (h2 : cur.is_guild_muted = false)
    (h3 : cur.channel_id.isSome = true) (h4 : env.editOk u = true) :
    on_voice_state_update env cfg u none cur
      = (Except.ok (), cfg, [Effect.mute u]) := by
  simp [on_voice_state_update, h1, h2, h3, h4]

/-- Claim C7 witness at a concrete input. -/
theorem c7_witness :
    on_voice_state_update envVc cfgA 1 none vsQuiet
      = (Except.ok (), cfgA, [Effect.mute 1]) :=
  c7_join_while_muted_amended envVc cfgA 1 vsQuiet (by decide) (by decide)
    (by decide) (by decide)

/-! ### The startup sweep -/

theorem CfgWF_drop_middle (pre tl : Cfg) (p : String × AfkMuteInfo)
    (hwf : CfgWF (pre ++ p :: tl)) : CfgWF (pre ++ tl) := by
  have hsub : List.Sublist (pre ++ tl) (pre ++ p :: tl) :=
    List.Sublist.append_left (List.sublist_cons_self p tl) pre
  constructor
  · exact hwf.1.sublist (hsub.map (fun q => q.1))
  · intro q hq
    exact hwf.2 q (hsub.subset hq)

theorem cfgDelete_middle (pre tl : Cfg) (p : String × AfkMuteInfo)
    (hnd : ((pre ++ p :: tl).map (fun q => q.1)).Nodup) :
    cfgDelete (pre ++ p :: tl) p.1 = pre ++ tl := by
  rw [List.map_append, List.map_cons, List.nodup_append] at hnd
  obtain ⟨h1, h2, h3⟩ := hnd
  rw [List.nodup_cons] at h2
  have hpre : List.filter (fun q => q.1 != p.1) pre = pre := by
    rw [List.filter_eq_self]
    intro q hq
    have hne : q.1 ≠ p.1 := by
      intro he
      exact h3 (List.mem_map_of_mem (fun r => r.1) hq)
        (by rw [he]; exact List.mem_cons_self _ _)
    simpa using hne
  have htl : List.filter (fun q => q.1 != p.1) tl = tl := by
    rw [List.filter_eq_self]
    intro q hq
    have hne : q.1 ≠ p.1 := by
      intro he
      exact h2.1 (he ▸ List.mem_map_of_mem (fun r => r.1) hq)
    simpa using hne
  rw [cfgDelete, List.filter_append, hpre, List.filter_cons]
  simp [htl]

theorem cfgContains_middle (pre tl : Cfg) (p : String × AfkMuteInfo) :
    cfgContains (pre ++ p :: tl) p.1 = true := by
  simp [cfgContains]

theorem sweep_records_skip_step (env : Env) (tl pre : Cfg) (p : String × AfkMuteInfo)
    (hwf : CfgWF (pre ++ p :: tl))
    (hstep : sweep_records env (p.2 :: cfgValues tl) (pre ++ p :: tl)
      = sweep_records env (cfgValues tl) (pre ++ p :: tl))
    (hsc : should_clear env p.2 = false)
    (ih : ∀ pre2 : Cfg, CfgWF (pre2 ++ tl) →
      sweep_records env (cfgValues tl) (pre2 ++ tl)
        = (Except.ok (), pre2 ++ tl.filter (fun q => !should_clear env q.2), [])) :
    sweep_records env (p.2 :: cfgValues tl) (pre ++ p :: tl)
      = (Except.ok (),
          pre ++ (p :: tl).filter (fun q => !should_clear env q.2), []) := by
  rw [hstep]
  have hwf2 : CfgWF ((pre ++ [p]) ++ tl) := by
    rw [List.append_assoc, List.singleton_append]
    exact hwf
  have h2 := ih (pre ++ [p]) hwf2
  rw [List.append_assoc, List.singleton_append] at h2
  rw [h2, List.filter_cons]
  simp [hsc, List.append_assoc]

theorem sweep_records_spec (env : Env) (rest : Cfg) :
    ∀ pre : Cfg, CfgWF (pre ++ rest) →
      sweep_records env (cfgValues rest) (pre ++ rest)
        = (Except.ok (), pre ++ rest.filter (fun p => !should_clear env p.2), []) := by
  induction rest with
  | nil =>
    intro pre _
    simp [cfgValues, sweep_records]
  | cons p tl ih =>
    intro pre hwf
    have hkey : p.1 = userKey p.2.user_id := hwf.2 p (by simp)
    have hvals : cfgValues (p :: tl) = p.2 :: cfgValues tl := rfl
    rw [hvals]
    cases hv : env.voice p.2.user_id with
    | none =>
      have hsc : should_clear env p.2 = false := by simp [should_clear, hv]
      have hstep : sweep_records env (p.2 :: cfgValues tl) (pre ++ p :: tl)
          = sweep_records env (cfgValues tl) (pre ++ p :: tl) := by
        simp [sweep_records, hv]
      exact sweep_records_skip_step env tl pre p hwf hstep hsc ih
    | some vs =>
      by_cases hm : vs.is_guild_muted = true
      · have hsc : should_clear env p.2 = false := by simp [should_clear, hv, hm]
        have hstep : sweep_records env (p.2 :: cfgValues tl) (pre ++ p :: tl)
            = sweep_records env (cfgValues tl) (pre ++ p :: tl) := by
          simp [sweep_records, hv, hm]
        exact sweep_records_skip_step env tl pre p hwf hstep hsc ih
      · have hm2 : vs.is_guild_muted = false := by simpa using hm
        have hsc : should_clear env p.2 = true := by simp [should_clear, hv, hm2]
        have hafk : is_afk_mute (pre ++ p :: tl) p.2.user_id = true := by
          have hc := cfgContains_middle pre tl p
          rw [hkey] at hc
          exact hc
        have huns := unset_afk_mute_of_no_vc_ok env (pre ++ p :: tl) p.2.user_id hafk
        have hdel : cfgDelete (pre ++ p :: tl) (userKey p.2.user_id) = pre ++ tl := by
          rw [← hkey]
          exact cfgDelete_middle pre tl p hwf.1
        rw [hdel] at huns
        have hwf3 : CfgWF (pre ++ tl) := CfgWF_drop_middle pre tl p hwf
        have h2 := ih pre hwf3
        simp only [sweep_records, hv, hm2, Bool.not_false, if_true, huns, h2]
        rw [List.filter_cons]
        simp [hsc]

theorem fetch_afk_mute_state_spec (env : Env) (cfg : Cfg) (hwf : CfgWF cfg) :
    fetch_afk_mute_state env cfg
      = (Except.ok (), cfg.filter (fun p => !should_clear env p.2), []) := by
  have h := sweep_records_spec env cfg [] (by simpa using hwf)
  simpa [fetch_afk_mute_state] using h

theorem CfgWF_filter (cfg : Cfg) (q : String × AfkMuteInfo → Bool)
    (hwf : CfgWF cfg) : CfgWF (cfg.filter q) := by
  constructor
  · exact hwf.1.sublist ((List.filter_sublist cfg).map (fun p => p.1))
  · intro p hp
    exact hwf.2 p (List.mem_of_mem_filter hp)

theorem filter_twice {α : Type} (p : α → Bool) (l : List α) :
    (l.filter p).filter p = l.filter p := by
  induction l with
  | nil => rfl
  | cons a l ih => cases h : p a <;> simp [List.filter_cons, h, ih]

/-- Claim C8: fetch_afk_mute_state enumerates every stored record and
deletes exactly those whose user has a cached voice presence that is not
guild-muted (the result registry is the filter keeping the others, with
the clears the only mutations performed), it raises no error, and it is
idempotent: running it twice in succession over its own result yields
the same registry as running it once. -/
theorem c8_reconcile_all_sweep (env : Env) (cfg : Cfg) (hwf : CfgWF cfg) :
    fetch_afk_mute_state env cfg
      = (Except.ok (), cfg.filter (fun p => !should_clear env p.2), [])
    ∧ (fetch_afk_mute_state env (fetch_afk_mute_state env cfg).2.1).2.1
      = (fetch_afk_mute_state env cfg).2.1 := by
  have h1 := fetch_afk_mute_state_spec env cfg hwf
  refine ⟨h1, ?_⟩
  have h2 := fetch_afk_mute_state_spec env
    (cfg.filter (fun p => !should_clear env p.2))
    (CfgWF_filter cfg (fun p => !should_clear env p.2) hwf)
  rw [h1]
  show (fetch_afk_mute_state env (cfg.filter (fun p => !should_clear env p.2))).2.1
      = cfg.filter (fun p => !should_clear env p.2)
  rw [h2]
  show (cfg.filter (fun p => !should_clear env p.2)).filter
        (fun p => !should_clear env p.2)
      = cfg.filter (fun p => !should_clear env p.2)
  exact filter_twice _ cfg

/-- Claim C8 witness at a concrete input. -/
theorem c8_witness :
    fetch_afk_mute_state envVc cfgA
      = (Except.ok (), cfgA.filter (fun p => !should_clear envVc p.2), [])
    ∧ (fetch_afk_mute_state envVc (fetch_afk_mute_state envVc cfgA).2.1).2.1
      = (fetch_afk_mute_state envVc cfgA).2.1 :=
  c8_reconcile_all_sweep envVc cfgA (by decide)

/-- Claim C9 counterexample: the sweep loop of fetch_afk_mute_state is
run over the record list snapshotted at entry; when the record for user
1 was removed from the registry between that snapshot and the clear
attempt (registry now empty) while user 1 is in vc and not guild-muted,
the clear fails with NotMuted and the failure is surfaced as the result
of the sweep, refuting the claim that it is swallowed. -/
theorem c9_counterexample :
    Env.inVc envVc 1 = true
    ∧ is_afk_mute ([] : Cfg) 1 = false
    ∧ sweep_records envVc [infoA] [] = (Except.error AfkMuteErr.notAfkMute, [], []) :=
  ⟨by decide, by decide, rfl⟩

/-- Claim C9 as amended: a NotMuted failure raised by the sweep's clear
attempt is not caught anywhere in fetch_afk_mute_state; it propagates to
the caller and aborts the remainder of the sweep (no further record is
processed and the registry is left as it was). -/
theorem c9_notmuted_propagates_amended (env : Env) (i : AfkMuteInfo)
    (rest : List AfkMuteInfo) (cfg : Cfg) (vs : VoiceState)
    (hv : env.voice i.user_id = some vs) (hm : vs.is_guild_muted = false)
    (h : is_afk_mute cfg i.user_id = false) :
    sweep_records env (i :: rest) cfg
      = (Except.error AfkMuteErr.notAfkMute, cfg, []) := by
  have huns := unset_afk_mute_of_not env cfg i.user_id true h
  simp only [sweep_records, hv, hm, Bool.not_false, if_true, huns]

/-- Claim C9 witness at a concrete input. -/
theorem c9_witness :
    sweep_records envVc (infoA :: [infoA]) []
      = (Except.error AfkMuteErr.notAfkMute, [], []) :=
  c9_notmuted_propagates_amended envVc infoA [infoA] [] vsQuiet rfl rfl (by decide)

/-- Claim C10: the sweep only shrinks the registry and issues no
platform call.  The registry after fetch_afk_mute_state is a sublist of
the registry before it (no record is created or modified), the list of
platform calls it issues is empty (every clear it performs uses
no_vc_ok true, which skips the edit), and any entry whose user has no
voice presence or whose presence is guild-muted is still present,
unchanged, afterwards. -/
theorem c10_sweep_frame (env : Env) (cfg : Cfg) (p : String × AfkMuteInfo)
    (hwf : CfgWF cfg) :
    List.Sublist (fetch_afk_mute_state env cfg).2.1 cfg
    ∧ (fetch_afk_mute_state env cfg).2.2 = []
    ∧ (p ∈ cfg → should_clear env p.2 = false →
        p ∈ (fetch_afk_mute_state env cfg).2.1) := by
  have h1 := fetch_afk_mute_state_spec env cfg hwf
  refine ⟨?_, ?_, ?_⟩
  · rw [h1]
    show List.Sublist (cfg.filter (fun q => !should_clear env q.2)) cfg
    exact List.filter_sublist cfg
  · rw [h1]
  · intro hp hsc
    rw [h1]
    show p ∈ cfg.filter (fun q => !should_clear env q.2)
    rw [List.mem_filter]
    exact ⟨hp, by simp [hsc]⟩

/-- Claim C10 witness at a concrete input. -/
theorem c10_witness :
    List.Sublist (fetch_afk_mute_state envNoVc cfgA).2.1 cfgA
    ∧ (fetch_afk_mute_state envNoVc cfgA).2.2 = []
    ∧ ((userKey 1, infoA) ∈ cfgA → should_clear envNoVc infoA = false →
        (userKey 1, infoA) ∈ (fetch_afk_mute_state envNoVc cfgA).2.1) :=
  c10_sweep_frame envNoVc cfgA (userKey 1, infoA) (by decide)
